import Mathlib

/-!
# regsync: the command layer of `main.go`

A shallow embedding of the five commands of `regsync` (`compress`,
`decompress`, `isgzip`, `recompressible`, `diff`) and of `main`.

The commands are glue around calls that leave the program: `os.Open`,
`os.Create`, the packages `streams` and `rsync`, and the `gob` encoder.
Those calls are fields of an environment `Env`; each of them receives the
history of the calls made so far, so that an environment may answer the same
call differently at different moments.  Every command takes the history on
entry and returns the history on exit together with its Go `error` result
(`none` is `nil`).

Go strings are byte strings; they are modelled by `String`, a sequence of
characters.  The only string operations of `main.go` are concatenation and
the test for, and removal of, the suffix `".gz"`, which is ASCII: on a name
that is UTF-8 the test over bytes and the test over characters agree, since
the first byte of the suffix can only match at the start of a character.

The result of parsing the command line is taken as given: a command is run
with the list `ctx.Args()` of its arguments.
-/

namespace Regsync

/-! ## Values -/

/-- A Go `error` value, identified with the text `%v` prints for it. -/
abbrev GoError := String

/-- The value of `ctx.Args()`: the command's arguments, flags and command name removed. -/
abbrev Args := List String

/-- `Args.Get(n)` of urfave/cli: the n-th argument, or the empty string when there is none. -/
def Args.Get (a : Args) (n : Nat) : String :=
  if a.length > n then a.getD n "" else ""

/-- `Args.First()` of urfave/cli: `a.Get(0)`. -/
def Args.First (a : Args) : String :=
  Args.Get a 0

/-- `strings.HasSuffix(s, suffix)`:
`len(s) >= len(suffix) && s[len(s)-len(suffix):] == suffix`. -/
def HasSuffix (s suffix : String) : Bool :=
  decide (s.length ≥ suffix.length) &&
    (String.mk (s.data.drop (s.length - suffix.length)) == suffix)

/-- `strings.TrimSuffix(s, suffix)`:
`s[:len(s)-len(suffix)]` when `s` has the suffix, `s` itself otherwise. -/
def TrimSuffix (s suffix : String) : String :=
  if HasSuffix s suffix then String.mk (s.data.take (s.length - suffix.length)) else s

/-- The `io.Reader` a command hands to the core: `os.Stdin`, or the file that
`os.Open(name)` returned. -/
inductive Reader where
  | stdin : Reader
  | file (name : String) : Reader
  deriving DecidableEq, Repr

/-- The `io.Writer` a command hands to the core: `os.Stdout`, or the file that
`os.Create(name)` returned. -/
inductive Writer where
  | stdout : Writer
  | file (name : String) : Writer
  deriving DecidableEq, Repr

/-- The calls by which `main.go` acts on the outside world, in the order made.
`Sig` is the type of `rsync.CreateSignature`'s result. -/
inductive Event (Sig : Type) where
  /-- Call of `os.Open(name)`. -/
  | osOpen (name : String) : Event Sig
  /-- Call of `os.Create(name)`: creates the file or truncates an existing one. -/
  | osCreate (name : String) : Event Sig
  /-- Call of `streams.Compress(input, output)`. -/
  | streamsCompress (input : Reader) (output : Writer) : Event Sig
  /-- Call of `streams.Decompress(input, output)`. -/
  | streamsDecompress (input : Reader) (output : Writer) : Event Sig
  /-- Call of `streams.IsGzip(input)`. -/
  | streamsIsGzip (input : Reader) : Event Sig
  /-- Call of `streams.Recompressible(input)`. -/
  | streamsRecompressible (input : Reader) : Event Sig
  /-- Call of `rsync.CreateSignature(input)`. -/
  | rsyncCreateSignature (input : Reader) : Event Sig
  /-- Call of `rsync.CreateDelta(input, signature, writer)`, where `writer`
  encodes each operation with a `gob` encoder on `output`. -/
  | rsyncCreateDelta (input : Reader) (signature : Sig) (output : Writer) : Event Sig
  /-- Text written to standard output by `fmt.Println` or `fmt.Printf`. -/
  | print (text : String) : Event Sig
  /-- Call of `os.Exit(code)`. -/
  | osExit (code : Nat) : Event Sig
  deriving DecidableEq, Repr

/-- The history of calls, oldest first. -/
abbrev Trace (Sig : Type) := List (Event Sig)

/-- The outside world of `main.go`.  Each field gives the result of one
external call, from the history before the call and the call's arguments.
`Op` is `rsync.Operation`. -/
structure Env (Sig Op : Type) where
  /-- The `error` of `os.Open(name)`. -/
  osOpen : Trace Sig → String → Option GoError
  /-- The `error` of `os.Create(name)`. -/
  osCreate : Trace Sig → String → Option GoError
  /-- The `error` of `streams.Compress(input, output)`. -/
  streamsCompress : Trace Sig → Reader → Writer → Option GoError
  /-- The `error` of `streams.Decompress(input, output)`. -/
  streamsDecompress : Trace Sig → Reader → Writer → Option GoError
  /-- The `(bool, error)` of `streams.IsGzip(input)`. -/
  streamsIsGzip : Trace Sig → Reader → Bool × Option GoError
  /-- The `(bool, error)` of `streams.Recompressible(input)`. -/
  streamsRecompressible : Trace Sig → Reader → Bool × Option GoError
  /-- The `(signature, error)` of `rsync.CreateSignature(input)`. -/
  rsyncCreateSignature : Trace Sig → Reader → Sig × Option GoError
  /-- The `error` of `enc.Encode(op)` for the encoder `gob.NewEncoder(output)`. -/
  gobEncode : Writer → Op → Option GoError
  /-- The `error` of `rsync.CreateDelta(input, signature, writer)`. -/
  rsyncCreateDelta : Trace Sig → Reader → Sig → (Op → Option GoError) → Option GoError

/-- What a command returns: the history on exit and its `error`. -/
abbrev Outcome (Sig : Type) := Trace Sig × Option GoError

/-! ## The commands -/

section Commands

variable {Sig Op : Type}

/-- The name `compress` passes to `os.Create` (lines 82-85):
`First() + ".gz"`, replaced by `Get(1)` when there is more than one argument. -/
def compressOutputName (args : Args) : String :=
  let outputName := Args.First args ++ ".gz"
  if args.length > 1 then Args.Get args 1 else outputName

/-- The action `compress` (lines 69-94). -/
def compress (env : Env Sig Op) (args : Args) (tr : Trace Sig) : Outcome Sig :=
  if args.length = 0 then
    (tr ++ [Event.streamsCompress Reader.stdin Writer.stdout],
      env.streamsCompress tr Reader.stdin Writer.stdout)
  else
    let tr1 := tr ++ [Event.osOpen (Args.First args)]
    match env.osOpen tr (Args.First args) with
    | some err => (tr1, some err)
    | none =>
      let outputName := compressOutputName args
      let tr2 := tr1 ++ [Event.osCreate outputName]
      match env.osCreate tr1 outputName with
      | some err => (tr2, some err)
      | none =>
        (tr2 ++ [Event.streamsCompress (Reader.file (Args.First args)) (Writer.file outputName)],
          env.streamsCompress tr2 (Reader.file (Args.First args)) (Writer.file outputName))

/-- The name `decompress` passes to `os.Create` (lines 103, 110-117). -/
def decompressOutputName (args : Args) : String :=
  let inputName := Args.First args
  if args.length > 1 then Args.Get args 1
  else if HasSuffix inputName ".gz" then TrimSuffix inputName ".gz"
  else inputName ++ "-decompressed"

/-- The action `decompress` (lines 96-126). -/
def decompress (env : Env Sig Op) (args : Args) (tr : Trace Sig) : Outcome Sig :=
  if args.length = 0 then
    (tr ++ [Event.streamsDecompress Reader.stdin Writer.stdout],
      env.streamsDecompress tr Reader.stdin Writer.stdout)
  else
    let inputName := Args.First args
    let tr1 := tr ++ [Event.osOpen inputName]
    match env.osOpen tr inputName with
    | some err => (tr1, some err)
    | none =>
      let outputName := decompressOutputName args
      let tr2 := tr1 ++ [Event.osCreate outputName]
      match env.osCreate tr1 outputName with
      | some err => (tr2, some err)
      | none =>
        (tr2 ++ [Event.streamsDecompress (Reader.file inputName) (Writer.file outputName)],
          env.streamsDecompress tr2 (Reader.file inputName) (Writer.file outputName))

/-- Lines 143-153 of `isGzip`, once `path` and `input` are set. -/
def isGzipCheck (env : Env Sig Op) (path : String) (input : Reader) (tr : Trace Sig) :
    Outcome Sig :=
  let tr1 := tr ++ [Event.streamsIsGzip input]
  match env.streamsIsGzip tr input with
  | (_, some err) => (tr1, some err)
  | (result, none) =>
    if !result then (tr1, some "Archive is not gzip")
    else (tr1 ++ [Event.print (path ++ "\n")], none)

/-- The action `isGzip` (lines 128-154). -/
def isGzip (env : Env Sig Op) (args : Args) (tr : Trace Sig) : Outcome Sig :=
  if args.length = 0 then
    isGzipCheck env "-" Reader.stdin tr
  else
    let path := Args.First args
    let tr1 := tr ++ [Event.osOpen path]
    match env.osOpen tr path with
    | some err => (tr1, some err)
    | none => isGzipCheck env path (Reader.file path) tr1

/-- Lines 168-178 of `recompressible`, once `input` is set. -/
def recompressibleCheck (env : Env Sig Op) (input : Reader) (tr : Trace Sig) : Outcome Sig :=
  let tr1 := tr ++ [Event.streamsRecompressible input]
  match env.streamsRecompressible tr input with
  | (_, some err) => (tr1, some err)
  | (result, none) =>
    if !result then (tr1, some "Archive is NOT recompressible!")
    else (tr1 ++ [Event.print ("Archive is recompressible!" ++ "\n")], none)

/-- The action `recompressible` (lines 156-179). -/
def recompressible (env : Env Sig Op) (args : Args) (tr : Trace Sig) : Outcome Sig :=
  if args.length = 0 then
    recompressibleCheck env Reader.stdin tr
  else
    let tr1 := tr ++ [Event.osOpen (Args.First args)]
    match env.osOpen tr (Args.First args) with
    | some err => (tr1, some err)
    | none => recompressibleCheck env (Reader.file (Args.First args)) tr1

/-- The closure `writer` of `diff` (lines 207-214): the result of `enc.Encode(op)`
for the encoder made on `output`. -/
def writer (env : Env Sig Op) (output : Writer) : Op → Option GoError :=
  fun op =>
    match env.gobEncode output op with
    | some err => some err
    | none => none

/-- Lines 207-216 of `diff`, once `second`, `signature` and `output` are set. -/
def diffDelta (env : Env Sig Op) (second : Reader) (signature : Sig) (output : Writer)
    (tr : Trace Sig) : Outcome Sig :=
  (tr ++ [Event.rsyncCreateDelta second signature output],
    env.rsyncCreateDelta tr second signature (writer env output))

/-- The action `diff` (lines 181-217). -/
def diff (env : Env Sig Op) (args : Args) (tr : Trace Sig) : Outcome Sig :=
  let tr1 := tr ++ [Event.osOpen (Args.First args)]
  match env.osOpen tr (Args.First args) with
  | some err => (tr1, some err)
  | none =>
    let tr2 := tr1 ++ [Event.rsyncCreateSignature (Reader.file (Args.First args))]
    match env.rsyncCreateSignature tr1 (Reader.file (Args.First args)) with
    | (_, some err) => (tr2, some err)
    | (signature, none) =>
      let tr3 := tr2 ++ [Event.osOpen (Args.Get args 1)]
      match env.osOpen tr2 (Args.Get args 1) with
      | some err => (tr3, some err)
      | none =>
        if args.length = 2 then
          diffDelta env (Reader.file (Args.Get args 1)) signature Writer.stdout tr3
        else
          let tr4 := tr3 ++ [Event.osCreate (Args.Get args 2)]
          match env.osCreate tr3 (Args.Get args 2) with
          | some err => (tr4, some err)
          | none =>
            diffDelta env (Reader.file (Args.Get args 1)) signature
              (Writer.file (Args.Get args 2)) tr4

/-- The `Before` hook of the `diff` command (lines 54-59). -/
def diffBefore (args : Args) : Option GoError :=
  if args.length < 2 then
    some "Usage: regsync filename1 filename2 [diff_filename (default stdout)]"
  else none

/-- The entries of `app.Commands` (lines 24-61). -/
inductive Command where
  | compress | decompress | isgzip | recompressible | diff
  deriving DecidableEq, Repr

/-- The `Before` hook registered for a command; only `diff` has one. -/
def Command.before : Command → Args → Option GoError
  | Command.diff, args => diffBefore args
  | _, _ => none

/-- The `Action` registered for a command. -/
def Command.action (env : Env Sig Op) : Command → Args → Trace Sig → Outcome Sig
  | Command.compress => Regsync.compress env
  | Command.decompress => Regsync.decompress env
  | Command.isgzip => Regsync.isGzip env
  | Command.recompressible => Regsync.recompressible env
  | Command.diff => Regsync.diff env

/-- The part of `app.Run` that runs a selected command, as urfave/cli does it:
the `Before` hook first, and the action only when the hook returned `nil`;
an error of the hook is the command's error. -/
def runCommand (env : Env Sig Op) (cmd : Command) (args : Args) (tr : Trace Sig) :
    Outcome Sig :=
  match Command.before cmd args with
  | some err => (tr, some err)
  | none => Command.action env cmd args tr

/-- The function `main` (lines 63-66) for a command line that selects `cmd`
with arguments `args`: the history of the whole process and its exit status. -/
def main (env : Env Sig Op) (cmd : Command) (args : Args) : Trace Sig × Nat :=
  match runCommand env cmd args [] with
  | (tr, some err) => (tr ++ [Event.print (err ++ "\n"), Event.osExit 1], 1)
  | (tr, none) => (tr, 0)

end Commands

/-! ## Files behind names -/

/-- The files that the calls of `os.Create` in a history created or truncated.
`resolve name` is the file that `name` denotes, links followed, so that two
names of one file resolve alike.  A call counts when it returned no error. -/
def createdFiles {Sig Op : Type} (env : Env Sig Op) (resolve : String → String)
    (tr : Trace Sig) : List String :=
  (List.range tr.length).filterMap fun i =>
    match tr[i]? with
    | some (Event.osCreate name) =>
      if (env.osCreate (tr.take i) name).isNone then some (resolve name) else none
    | _ => none

/-! ## A concrete environment for examples -/

/-- An environment in which the files named in `missing` cannot be opened,
those named in `readonly` cannot be created, and every core call succeeds:
`IsGzip` and `Recompressible` answer `gz`, the signature of a reader is the
reader itself. -/
def sampleEnv (missing readonly : List String) (gz : Bool) : Env Reader Nat where
  osOpen := fun _ name => if name ∈ missing then some ("open " ++ name) else none
  osCreate := fun _ name => if name ∈ readonly then some ("create " ++ name) else none
  streamsCompress := fun _ _ _ => none
  streamsDecompress := fun _ _ _ => none
  streamsIsGzip := fun _ _ => (gz, none)
  streamsRecompressible := fun _ _ => (gz, none)
  rsyncCreateSignature := fun _ r => (r, none)
  gobEncode := fun _ _ => none
  rsyncCreateDelta := fun _ _ _ _ => none

/-- An environment in which every file opens and is created, the encoder fails
on the writers listed in `broken` and succeeds on the others, and
`rsync.CreateDelta` hands one operation to its sink and returns what the sink
returns. -/
def sinkEnv (broken : List Writer) : Env Reader Nat where
  osOpen := fun _ _ => none
  osCreate := fun _ _ => none
  streamsCompress := fun _ _ _ => none
  streamsDecompress := fun _ _ _ => none
  streamsIsGzip := fun _ _ => (true, none)
  streamsRecompressible := fun _ _ => (true, none)
  rsyncCreateSignature := fun _ r => (r, none)
  gobEncode := fun w _ => if w ∈ broken then some "disk full" else none
  rsyncCreateDelta := fun _ _ _ sink => sink 0

/-- A directory in which `a.gz` is a link to `a`: both names denote the file `a`. -/
def linkedNames (name : String) : String :=
  if name = "a.gz" then "a" else name

/-- An environment in which every file opens and `rsync.CreateSignature` fails. -/
def brokenSignatureEnv : Env Reader Nat where
  osOpen := fun _ _ => none
  osCreate := fun _ _ => none
  streamsCompress := fun _ _ _ => none
  streamsDecompress := fun _ _ _ => none
  streamsIsGzip := fun _ _ => (true, none)
  streamsRecompressible := fun _ _ => (true, none)
  rsyncCreateSignature := fun _ r => (r, some "short read")
  gobEncode := fun _ _ => none
  rsyncCreateDelta := fun _ _ _ _ => none

/-! ## Strings -/

theorem drop_data_append (p suffix : String) :
    List.drop ((p ++ suffix).length - suffix.length) (p ++ suffix).data = suffix.data := by
  rw [String.length_append, String.data_append]
  show List.drop (p.data.length + suffix.data.length - suffix.data.length) _ = _
  simp

theorem take_data_append (p suffix : String) :
    List.take ((p ++ suffix).length - suffix.length) (p ++ suffix).data = p.data := by
  rw [String.length_append, String.data_append]
  show List.take (p.data.length + suffix.data.length - suffix.data.length) _ = _
  simp

theorem hasSuffix_iff (s suffix : String) :
    HasSuffix s suffix = true ↔ ∃ p : String, s = p ++ suffix := by
  constructor
  · intro h
    simp only [HasSuffix, Bool.and_eq_true, decide_eq_true_eq, beq_iff_eq] at h
    refine ⟨String.mk (s.data.take (s.length - suffix.length)), ?_⟩
    apply String.ext
    rw [String.data_append, ← congrArg String.data h.2]
    simp
  · rintro ⟨p, rfl⟩
    simp only [HasSuffix, Bool.and_eq_true, decide_eq_true_eq, beq_iff_eq]
    refine ⟨by rw [String.length_append]; omega, ?_⟩
    apply String.ext
    exact drop_data_append p suffix

theorem trimSuffix_append (p suffix : String) : TrimSuffix (p ++ suffix) suffix = p := by
  have h : HasSuffix (p ++ suffix) suffix = true := (hasSuffix_iff _ _).2 ⟨p, rfl⟩
  simp only [TrimSuffix, h, if_true]
  apply String.ext
  exact take_data_append p suffix

theorem append_ne_self (s t : String) (ht : t.length ≠ 0) : s ++ t ≠ s := by
  intro h
  have := congrArg String.length h
  rw [String.length_append] at this
  omega

/-! ## Default output names -/

theorem compressOutputName_single (f : String) : compressOutputName [f] = f ++ ".gz" := by
  simp [compressOutputName, Args.First, Args.Get]

theorem decompressOutputName_single (f : String) :
    decompressOutputName [f] =
      if HasSuffix f ".gz" then TrimSuffix f ".gz" else f ++ "-decompressed" := by
  simp [decompressOutputName, Args.First, Args.Get]

theorem decompressOutputName_gz (stem : String) :
    decompressOutputName [stem ++ ".gz"] = stem := by
  rw [decompressOutputName_single, (hasSuffix_iff _ _).2 ⟨stem, rfl⟩, if_pos rfl,
    trimSuffix_append]

theorem decompressOutputName_other (f : String) (h : ¬ ∃ stem : String, f = stem ++ ".gz") :
    decompressOutputName [f] = f ++ "-decompressed" := by
  have hs : HasSuffix f ".gz" = false := by
    cases hb : HasSuffix f ".gz"
    · rfl
    · exact absurd ((hasSuffix_iff _ _).1 hb) h
  rw [decompressOutputName_single, hs]
  simp

theorem compressOutputName_ne (f : String) : compressOutputName [f] ≠ f := by
  rw [compressOutputName_single]
  exact append_ne_self f ".gz" (by decide)

theorem decompressOutputName_ne (f : String) : decompressOutputName [f] ≠ f := by
  by_cases h : ∃ stem : String, f = stem ++ ".gz"
  · obtain ⟨stem, rfl⟩ := h
    rw [decompressOutputName_gz]
    exact (append_ne_self stem ".gz" (by decide)).symm
  · rw [decompressOutputName_other f h]
    exact append_ne_self f "-decompressed" (by decide)

/-! ## The calls a command can make -/

theorem compress_events {Sig Op : Type} (env : Env Sig Op) (args : Args)
    (hargs : args.length ≠ 0) :
    ∀ ev ∈ (runCommand env Command.compress args []).1,
      ev = Event.osOpen (Args.First args) ∨ ev = Event.osCreate (compressOutputName args) ∨
        ev = Event.streamsCompress (Reader.file (Args.First args))
          (Writer.file (compressOutputName args)) := by
  intro ev hev
  simp only [runCommand, Command.before, Command.action, compress, hargs, if_false] at hev
  cases ho : env.osOpen [] (Args.First args) <;>
    cases hc : env.osCreate [Event.osOpen (Args.First args)] (compressOutputName args) <;>
    simp [ho, hc] at hev <;> tauto

theorem decompress_events {Sig Op : Type} (env : Env Sig Op) (args : Args)
    (hargs : args.length ≠ 0) :
    ∀ ev ∈ (runCommand env Command.decompress args []).1,
      ev = Event.osOpen (Args.First args) ∨ ev = Event.osCreate (decompressOutputName args) ∨
        ev = Event.streamsDecompress (Reader.file (Args.First args))
          (Writer.file (decompressOutputName args)) := by
  intro ev hev
  simp only [runCommand, Command.before, Command.action, decompress, hargs, if_false] at hev
  cases ho : env.osOpen [] (Args.First args) <;>
    cases hc : env.osCreate [Event.osOpen (Args.First args)] (decompressOutputName args) <;>
    simp [ho, hc] at hev <;> tauto

theorem createdFiles_mem {Sig Op : Type} (env : Env Sig Op) (resolve : String → String)
    (tr : Trace Sig) (file : String) (h : file ∈ createdFiles env resolve tr) :
    ∃ name : String, Event.osCreate name ∈ tr ∧ resolve name = file := by
  simp only [createdFiles, List.mem_filterMap] at h
  obtain ⟨i, -, hi⟩ := h
  cases hget : tr[i]? with
  | none => simp [hget] at hi
  | some ev =>
    cases ev <;> simp [hget] at hi
    case osCreate name => exact ⟨name, List.getElem?_mem hget, hi.2⟩

theorem createdFiles_open_create {Sig Op : Type} (env : Env Sig Op)
    (resolve : String → String) (f name : String) (last : Event Sig)
    (hlast : ∀ n : String, last ≠ Event.osCreate n)
    (hc : env.osCreate [Event.osOpen f] name = none) :
    createdFiles env resolve [Event.osOpen f, Event.osCreate name, last] = [resolve name] := by
  cases last <;>
    first
    | exact absurd rfl (hlast _)
    | simp [createdFiles, List.range_succ, hc]

/-! ## Stream selection of `compress` and `decompress` -/

/-- C5: `compress` with no argument hands standard input and standard output
to `streams.Compress`; with exactly one argument `f` it opens `f` and creates
`f ++ ".gz"`; with two or more arguments it opens the first and creates the
second.  In each case these are the only files it touches, and when both calls
succeed the opened and the created file are what `streams.Compress` receives,
whose result is the command's result. -/
theorem compress_selects_streams {Sig Op : Type} (env : Env Sig Op) :
    (runCommand env Command.compress [] [] =
        ([Event.streamsCompress Reader.stdin Writer.stdout],
          env.streamsCompress [] Reader.stdin Writer.stdout)) ∧
    (∀ f : String,
      (∀ ev ∈ (runCommand env Command.compress [f] []).1,
        ev = Event.osOpen f ∨ ev = Event.osCreate (f ++ ".gz") ∨
          ev = Event.streamsCompress (Reader.file f) (Writer.file (f ++ ".gz"))) ∧
      (env.osOpen [] f = none → env.osCreate [Event.osOpen f] (f ++ ".gz") = none →
        runCommand env Command.compress [f] [] =
          ([Event.osOpen f, Event.osCreate (f ++ ".gz"),
              Event.streamsCompress (Reader.file f) (Writer.file (f ++ ".gz"))],
            env.streamsCompress [Event.osOpen f, Event.osCreate (f ++ ".gz")]
              (Reader.file f) (Writer.file (f ++ ".gz"))))) ∧
    (∀ (f g : String) (rest : List String),
      (∀ ev ∈ (runCommand env Command.compress (f :: g :: rest) []).1,
        ev = Event.osOpen f ∨ ev = Event.osCreate g ∨
          ev = Event.streamsCompress (Reader.file f) (Writer.file g)) ∧
      (env.osOpen [] f = none → env.osCreate [Event.osOpen f] g = none →
        runCommand env Command.compress (f :: g :: rest) [] =
          ([Event.osOpen f, Event.osCreate g,
              Event.streamsCompress (Reader.file f) (Writer.file g)],
            env.streamsCompress [Event.osOpen f, Event.osCreate g]
              (Reader.file f) (Writer.file g)))) := by
  refine ⟨?_, ?_, ?_⟩
  · simp [runCommand, Command.before, Command.action, compress]
  · intro f
    constructor
    · intro ev hev
      simp only [runCommand, Command.before, Command.action, compress, compressOutputName,
        Args.First, Args.Get] at hev
      cases ho : env.osOpen [] f <;> cases hc : env.osCreate [Event.osOpen f] (f ++ ".gz") <;>
        simp [ho, hc] at hev <;> tauto
    · intro ho hc
      simp [runCommand, Command.before, Command.action, compress, compressOutputName,
        Args.First, Args.Get, ho, hc]
  · intro f g rest
    constructor
    · intro ev hev
      simp only [runCommand, Command.before, Command.action, compress, compressOutputName,
        Args.First, Args.Get] at hev
      cases ho : env.osOpen [] f <;> cases hc : env.osCreate [Event.osOpen f] g <;>
        simp [ho, hc] at hev <;> tauto
    · intro ho hc
      simp [runCommand, Command.before, Command.action, compress, compressOutputName,
        Args.First, Args.Get, ho, hc]

/-- C6: `decompress` with no argument hands standard input and standard output
to `streams.Decompress`; with two or more arguments it creates the file named by
the second; with exactly one argument `stem ++ ".gz"` it creates the file named
`stem`, the argument without its last `".gz"`, so that `a.gz.gz` gives `a.gz`.
In each case these are the only files it touches, and when both calls succeed
the created file is what `streams.Decompress` writes to. -/
theorem decompress_selects_streams {Sig Op : Type} (env : Env Sig Op) :
    (runCommand env Command.decompress [] [] =
        ([Event.streamsDecompress Reader.stdin Writer.stdout],
          env.streamsDecompress [] Reader.stdin Writer.stdout)) ∧
    (∀ (f g : String) (rest : List String),
      (∀ ev ∈ (runCommand env Command.decompress (f :: g :: rest) []).1,
        ev = Event.osOpen f ∨ ev = Event.osCreate g ∨
          ev = Event.streamsDecompress (Reader.file f) (Writer.file g)) ∧
      (env.osOpen [] f = none → env.osCreate [Event.osOpen f] g = none →
        runCommand env Command.decompress (f :: g :: rest) [] =
          ([Event.osOpen f, Event.osCreate g,
              Event.streamsDecompress (Reader.file f) (Writer.file g)],
            env.streamsDecompress [Event.osOpen f, Event.osCreate g]
              (Reader.file f) (Writer.file g)))) ∧
    (∀ stem : String,
      (∀ ev ∈ (runCommand env Command.decompress [stem ++ ".gz"] []).1,
        ev = Event.osOpen (stem ++ ".gz") ∨ ev = Event.osCreate stem ∨
          ev = Event.streamsDecompress (Reader.file (stem ++ ".gz")) (Writer.file stem)) ∧
      (env.osOpen [] (stem ++ ".gz") = none →
        env.osCreate [Event.osOpen (stem ++ ".gz")] stem = none →
        runCommand env Command.decompress [stem ++ ".gz"] [] =
          ([Event.osOpen (stem ++ ".gz"), Event.osCreate stem,
              Event.streamsDecompress (Reader.file (stem ++ ".gz")) (Writer.file stem)],
            env.streamsDecompress [Event.osOpen (stem ++ ".gz"), Event.osCreate stem]
              (Reader.file (stem ++ ".gz")) (Writer.file stem)))) ∧
    decompressOutputName ["a.gz.gz"] = "a.gz" := by
  refine ⟨?_, ?_, ?_, by decide⟩
  · simp [runCommand, Command.before, Command.action, decompress]
  · intro f g rest
    constructor
    · intro ev hev
      simp only [runCommand, Command.before, Command.action, decompress, decompressOutputName,
        Args.First, Args.Get] at hev
      cases ho : env.osOpen [] f <;> cases hc : env.osCreate [Event.osOpen f] g <;>
        simp [ho, hc] at hev <;> tauto
    · intro ho hc
      simp [runCommand, Command.before, Command.action, decompress, decompressOutputName,
        Args.First, Args.Get, ho, hc]
  · intro stem
    have hname := decompressOutputName_gz stem
    have hfirst : Args.First [stem ++ ".gz"] = stem ++ ".gz" := by simp [Args.First, Args.Get]
    constructor
    · intro ev hev
      simp only [runCommand, Command.before, Command.action, decompress, hname, hfirst] at hev
      cases ho : env.osOpen [] (stem ++ ".gz") <;>
        cases hc : env.osCreate [Event.osOpen (stem ++ ".gz")] stem <;>
        simp [ho, hc] at hev <;> tauto
    · intro ho hc
      simp [runCommand, Command.before, Command.action, decompress, hname, hfirst, ho, hc]

/-- C7 fails at `compress a` and at `decompress a.gz`: when the input opens and
the output is created, `compress a` makes exactly the calls `os.Open("a")`,
`os.Create("a.gz")` and `streams.Compress` on the files `a` and `a.gz`, and
returns the result of that call; `decompress a.gz` does the same with
`os.Create("a")` and `streams.Decompress` on the files `a.gz` and `a`.
Neither run hands standard output to the core. -/
theorem usage_standard_output_not_honoured {Sig Op : Type} (env : Env Sig Op)
    (hopen : env.osOpen [] "a" = none)
    (hcreate : env.osCreate [Event.osOpen "a"] "a.gz" = none)
    (hopen2 : env.osOpen [] "a.gz" = none)
    (hcreate2 : env.osCreate [Event.osOpen "a.gz"] "a" = none) :
    runCommand env Command.compress ["a"] [] =
      ([Event.osOpen "a", Event.osCreate "a.gz",
          Event.streamsCompress (Reader.file "a") (Writer.file "a.gz")],
        env.streamsCompress [Event.osOpen "a", Event.osCreate "a.gz"]
          (Reader.file "a") (Writer.file "a.gz")) ∧
    runCommand env Command.decompress ["a.gz"] [] =
      ([Event.osOpen "a.gz", Event.osCreate "a",
          Event.streamsDecompress (Reader.file "a.gz") (Writer.file "a")],
        env.streamsDecompress [Event.osOpen "a.gz", Event.osCreate "a"]
          (Reader.file "a.gz") (Writer.file "a")) ∧
    (∀ r : Reader, Event.streamsCompress r Writer.stdout ∉
      (runCommand env Command.compress ["a"] []).1) ∧
    (∀ r : Reader, Event.streamsDecompress r Writer.stdout ∉
      (runCommand env Command.decompress ["a.gz"] []).1) := by
  have hc : compressOutputName ["a"] = "a.gz" := by decide
  have hd : decompressOutputName ["a.gz"] = "a" := by decide
  have hf : Args.First ["a"] = "a" := by decide
  have hg : Args.First ["a.gz"] = "a.gz" := by decide
  have h1 : runCommand env Command.compress ["a"] [] =
      ([Event.osOpen "a", Event.osCreate "a.gz",
          Event.streamsCompress (Reader.file "a") (Writer.file "a.gz")],
        env.streamsCompress [Event.osOpen "a", Event.osCreate "a.gz"]
          (Reader.file "a") (Writer.file "a.gz")) := by
    simp [runCommand, Command.before, Command.action, compress, hc, hf, hopen, hcreate]
  have h2 : runCommand env Command.decompress ["a.gz"] [] =
      ([Event.osOpen "a.gz", Event.osCreate "a",
          Event.streamsDecompress (Reader.file "a.gz") (Writer.file "a")],
        env.streamsDecompress [Event.osOpen "a.gz", Event.osCreate "a"]
          (Reader.file "a.gz") (Writer.file "a")) := by
    simp [runCommand, Command.before, Command.action, decompress, hd, hg, hopen2, hcreate2]
  refine ⟨h1, h2, ?_, ?_⟩
  · intro r
    rw [h1]
    simp
  · intro r
    rw [h2]
    simp

/-! ## Failures before the output exists -/

theorem diffBefore_pass (args : Args) (h : 2 ≤ args.length) : diffBefore args = none := by
  simp only [diffBefore]
  rw [if_neg (by omega)]

/-- C8: when `os.Open` fails on the input of `compress` or `decompress`, the
command returns that error and its only call was that `os.Open`: no
`os.Create`, no call into `streams`.  In `diff`, when opening `filename1`
fails, or `rsync.CreateSignature` fails on it, or opening `filename2` fails,
the command returns that error having made only the calls up to the failing
one: no `os.Create`, no `rsync.CreateDelta`, and `filename2` is opened only
after the signature was built. -/
theorem failure_before_output {Sig Op : Type} (env : Env Sig Op) (args : Args)
    (err : GoError) :
    (args.length ≠ 0 → env.osOpen [] (Args.First args) = some err →
      runCommand env Command.compress args [] = ([Event.osOpen (Args.First args)], some err)) ∧
    (args.length ≠ 0 → env.osOpen [] (Args.First args) = some err →
      runCommand env Command.decompress args [] =
        ([Event.osOpen (Args.First args)], some err)) ∧
    (2 ≤ args.length → env.osOpen [] (Args.First args) = some err →
      runCommand env Command.diff args [] = ([Event.osOpen (Args.First args)], some err)) ∧
    (2 ≤ args.length → env.osOpen [] (Args.First args) = none →
      (env.rsyncCreateSignature [Event.osOpen (Args.First args)]
        (Reader.file (Args.First args))).2 = some err →
      runCommand env Command.diff args [] =
        ([Event.osOpen (Args.First args),
            Event.rsyncCreateSignature (Reader.file (Args.First args))], some err)) ∧
    (2 ≤ args.length → env.osOpen [] (Args.First args) = none →
      (env.rsyncCreateSignature [Event.osOpen (Args.First args)]
        (Reader.file (Args.First args))).2 = none →
      env.osOpen [Event.osOpen (Args.First args),
          Event.rsyncCreateSignature (Reader.file (Args.First args))] (Args.Get args 1)
        = some err →
      runCommand env Command.diff args [] =
        ([Event.osOpen (Args.First args),
            Event.rsyncCreateSignature (Reader.file (Args.First args)),
            Event.osOpen (Args.Get args 1)], some err)) := by
  refine ⟨?_, ?_, ?_, ?_, ?_⟩
  · intro h ho
    simp [runCommand, Command.before, Command.action, compress, h, ho]
  · intro h ho
    simp [runCommand, Command.before, Command.action, decompress, h, ho]
  · intro h ho
    simp [runCommand, Command.before, Command.action, diff, diffBefore_pass args h, ho]
  · intro h ho hs
    rcases hsig : env.rsyncCreateSignature [Event.osOpen (Args.First args)]
      (Reader.file (Args.First args)) with ⟨signature, e⟩
    rw [hsig] at hs
    simp only at hs
    subst hs
    simp [runCommand, Command.before, Command.action, diff, diffBefore_pass args h, ho, hsig]
  · intro h ho hs ho2
    rcases hsig : env.rsyncCreateSignature [Event.osOpen (Args.First args)]
      (Reader.file (Args.First args)) with ⟨signature, e⟩
    rw [hsig] at hs
    simp only at hs
    subst hs
    simp [runCommand, Command.before, Command.action, diff, diffBefore_pass args h, ho, hsig,
      ho2]

/-! ## Default names -/

theorem compress_single_trace {Sig Op : Type} (env : Env Sig Op) (f : String)
    (ho : env.osOpen [] f = none)
    (hc : env.osCreate [Event.osOpen f] (compressOutputName [f]) = none) :
    (runCommand env Command.compress [f] []).1 =
      [Event.osOpen f, Event.osCreate (compressOutputName [f]),
        Event.streamsCompress (Reader.file f) (Writer.file (compressOutputName [f]))] := by
  have hf : Args.First [f] = f := by simp [Args.First, Args.Get]
  simp [runCommand, Command.before, Command.action, compress, hf, ho, hc]

theorem decompress_single_trace {Sig Op : Type} (env : Env Sig Op) (f : String)
    (ho : env.osOpen [] f = none)
    (hc : env.osCreate [Event.osOpen f] (decompressOutputName [f]) = none) :
    (runCommand env Command.decompress [f] []).1 =
      [Event.osOpen f, Event.osCreate (decompressOutputName [f]),
        Event.streamsDecompress (Reader.file f) (Writer.file (decompressOutputName [f]))] := by
  have hf : Args.First [f] = f := by simp [Args.First, Args.Get]
  simp [runCommand, Command.before, Command.action, decompress, hf, ho, hc]

/-- C9, as stated, fails: in a directory where `a.gz` is a link to `a`, the run
of `compress a` creates, and so truncates, the file `a` that is its input, and
the run of `decompress a.gz` creates the file that is its input. -/
theorem input_file_created_counterexample :
    linkedNames "a" ∈ createdFiles (sampleEnv [] [] true) linkedNames
      (runCommand (sampleEnv [] [] true) Command.compress ["a"] []).1 ∧
    linkedNames "a.gz" ∈ createdFiles (sampleEnv [] [] true) linkedNames
      (runCommand (sampleEnv [] [] true) Command.decompress ["a.gz"] []).1 := by
  decide

/-- C9, amended: for every file name `f`, the name `compress` derives from the
single argument `f` and the name `decompress` derives from it both differ from
`f`; when `f` does not end in `.gz` the latter is `f ++ "-decompressed"`; the
run of either command on the single argument `f` makes no call `os.Create(f)`;
the file it creates, when the input opens and the creation succeeds, is the one
the derived name denotes; and it does not create its own input file unless the
derived name denotes that same file. -/
theorem default_output_differs_from_input {Sig Op : Type} (env : Env Sig Op)
    (resolve : String → String) (f : String) :
    compressOutputName [f] ≠ f ∧ decompressOutputName [f] ≠ f ∧
    ((¬ ∃ stem : String, f = stem ++ ".gz") →
      decompressOutputName [f] = f ++ "-decompressed") ∧
    Event.osCreate f ∉ (runCommand env Command.compress [f] []).1 ∧
    Event.osCreate f ∉ (runCommand env Command.decompress [f] []).1 ∧
    (env.osOpen [] f = none → env.osCreate [Event.osOpen f] (compressOutputName [f]) = none →
      createdFiles env resolve (runCommand env Command.compress [f] []).1 =
        [resolve (compressOutputName [f])]) ∧
    (env.osOpen [] f = none →
      env.osCreate [Event.osOpen f] (decompressOutputName [f]) = none →
      createdFiles env resolve (runCommand env Command.decompress [f] []).1 =
        [resolve (decompressOutputName [f])]) ∧
    (resolve (compressOutputName [f]) ≠ resolve f →
      resolve f ∉ createdFiles env resolve (runCommand env Command.compress [f] []).1) ∧
    (resolve (decompressOutputName [f]) ≠ resolve f →
      resolve f ∉ createdFiles env resolve (runCommand env Command.decompress [f] []).1) := by
  have hf : Args.First [f] = f := by simp [Args.First, Args.Get]
  refine ⟨compressOutputName_ne f, decompressOutputName_ne f, decompressOutputName_other f,
    ?_, ?_, ?_, ?_, ?_, ?_⟩
  · intro hev
    rcases compress_events env [f] (by simp) _ hev with h1 | h1 | h1 <;> simp at h1
    exact compressOutputName_ne f h1.symm
  · intro hev
    rcases decompress_events env [f] (by simp) _ hev with h1 | h1 | h1 <;> simp at h1
    exact decompressOutputName_ne f h1.symm
  · intro ho hc
    rw [compress_single_trace env f ho hc]
    exact createdFiles_open_create env resolve f _ _ (by simp) hc
  · intro ho hc
    rw [decompress_single_trace env f ho hc]
    exact createdFiles_open_create env resolve f _ _ (by simp) hc
  · intro hne hmem
    obtain ⟨name, hev, hres⟩ := createdFiles_mem env resolve _ _ hmem
    rcases compress_events env [f] (by simp) _ hev with h1 | h1 | h1 <;> simp at h1
    exact hne (h1 ▸ hres)
  · intro hne hmem
    obtain ⟨name, hev, hres⟩ := createdFiles_mem env resolve _ _ hmem
    rcases decompress_events env [f] (by simp) _ hev with h1 | h1 | h1 <;> simp at h1
    exact hne (h1 ▸ hres)

/-- C10: the name `decompress` derives from the name `compress` derives from
`f` is `f`; and the name `compress` derives from the name `decompress` derives
from `g` is `g` exactly when `g` ends in `.gz`. -/
theorem default_output_names_round_trip :
    (∀ f : String, decompressOutputName [compressOutputName [f]] = f) ∧
    (∀ g : String, compressOutputName [decompressOutputName [g]] = g ↔
      ∃ stem : String, g = stem ++ ".gz") := by
  constructor
  · intro f
    rw [compressOutputName_single, decompressOutputName_gz]
  · intro g
    constructor
    · intro h
      rw [compressOutputName_single] at h
      exact ⟨decompressOutputName [g], h.symm⟩
    · rintro ⟨stem, rfl⟩
      rw [decompressOutputName_gz, compressOutputName_single]

/-! ## The commands `isgzip` and `recompressible` -/

/-- C1: when the input of `isgzip` is available (standard input, or `os.Open`
succeeded), the command returns no error exactly when `streams.IsGzip` returned
`(true, nil)`, and exactly then the process exits with status 0, having printed
the path (`-` for standard input).  When the detector returned `(false, nil)`
the command's error is `Archive is not gzip`; when it returned an error the
command returns that error; in both cases the process prints the error and
exits with status 1. -/
theorem isgzip_succeeds_iff_detector {Sig Op : Type} (env : Env Sig Op) (args : Args)
    (path : String) (input : Reader) (before : Trace Sig)
    (hopened : (args.length = 0 ∧ path = "-" ∧ input = Reader.stdin ∧ before = []) ∨
      (args.length ≠ 0 ∧ path = Args.First args ∧ input = Reader.file path ∧
        before = [Event.osOpen path] ∧ env.osOpen [] path = none)) :
    ((runCommand env Command.isgzip args []).2 = none ↔
      env.streamsIsGzip before input = (true, none)) ∧
    ((main env Command.isgzip args).2 = 0 ↔
      env.streamsIsGzip before input = (true, none)) ∧
    (env.streamsIsGzip before input = (true, none) →
      main env Command.isgzip args =
        (before ++ [Event.streamsIsGzip input, Event.print (path ++ "\n")], 0)) ∧
    (env.streamsIsGzip before input = (false, none) →
      (runCommand env Command.isgzip args []).2 = some "Archive is not gzip" ∧
      main env Command.isgzip args =
        (before ++ [Event.streamsIsGzip input, Event.print ("Archive is not gzip" ++ "\n"),
          Event.osExit 1], 1)) ∧
    (∀ err : GoError, (env.streamsIsGzip before input).2 = some err →
      (runCommand env Command.isgzip args []).2 = some err ∧
      main env Command.isgzip args =
        (before ++ [Event.streamsIsGzip input, Event.print (err ++ "\n"), Event.osExit 1],
          1)) := by
  rcases hopened with ⟨h0, rfl, rfl, rfl⟩ | ⟨h0, rfl, rfl, rfl, ho⟩
  · rcases hd : env.streamsIsGzip [] Reader.stdin with ⟨b, e⟩
    cases b <;> cases e <;>
      simp [main, runCommand, Command.before, Command.action, isGzip, isGzipCheck, h0, hd]
  · rcases hd : env.streamsIsGzip [Event.osOpen (Args.First args)]
      (Reader.file (Args.First args)) with ⟨b, e⟩
    cases b <;> cases e <;>
      simp [main, runCommand, Command.before, Command.action, isGzip, isGzipCheck, h0, ho, hd]

/-- C2: when the input of `recompressible` is available (standard input, or
`os.Open` succeeded), the command returns no error exactly when
`streams.Recompressible` returned `(true, nil)`, and exactly then the process
exits with status 0.  When the verifier returned `(false, nil)` the command's
error is `Archive is NOT recompressible!`; when it returned an error the
command returns that error unchanged; in both cases the process prints the
error and exits with status 1. -/
theorem recompressible_succeeds_iff_verifier {Sig Op : Type} (env : Env Sig Op)
    (args : Args) (input : Reader) (before : Trace Sig)
    (hopened : (args.length = 0 ∧ input = Reader.stdin ∧ before = []) ∨
      (args.length ≠ 0 ∧ input = Reader.file (Args.First args) ∧
        before = [Event.osOpen (Args.First args)] ∧
        env.osOpen [] (Args.First args) = none)) :
    ((runCommand env Command.recompressible args []).2 = none ↔
      env.streamsRecompressible before input = (true, none)) ∧
    ((main env Command.recompressible args).2 = 0 ↔
      env.streamsRecompressible before input = (true, none)) ∧
    (env.streamsRecompressible before input = (true, none) →
      main env Command.recompressible args =
        (before ++ [Event.streamsRecompressible input,
          Event.print ("Archive is recompressible!" ++ "\n")], 0)) ∧
    (env.streamsRecompressible before input = (false, none) →
      (runCommand env Command.recompressible args []).2 =
        some "Archive is NOT recompressible!" ∧
      main env Command.recompressible args =
        (before ++ [Event.streamsRecompressible input,
          Event.print ("Archive is NOT recompressible!" ++ "\n"), Event.osExit 1], 1)) ∧
    (∀ err : GoError, (env.streamsRecompressible before input).2 = some err →
      (runCommand env Command.recompressible args []).2 = some err ∧
      main env Command.recompressible args =
        (before ++ [Event.streamsRecompressible input, Event.print (err ++ "\n"),
          Event.osExit 1], 1)) := by
  rcases hopened with ⟨h0, rfl, rfl⟩ | ⟨h0, rfl, rfl, ho⟩
  · rcases hd : env.streamsRecompressible [] Reader.stdin with ⟨b, e⟩
    cases b <;> cases e <;>
      simp [main, runCommand, Command.before, Command.action, recompressible,
        recompressibleCheck, h0, hd]
  · rcases hd : env.streamsRecompressible [Event.osOpen (Args.First args)]
      (Reader.file (Args.First args)) with ⟨b, e⟩
    cases b <;> cases e <;>
      simp [main, runCommand, Command.before, Command.action, recompressible,
        recompressibleCheck, h0, ho, hd]

/-! ## The command `diff` -/

theorem diff_events {Sig Op : Type} (env : Env Sig Op) (args : Args) (h : 2 ≤ args.length) :
    ∀ ev ∈ (runCommand env Command.diff args []).1,
      ev = Event.osOpen (Args.First args) ∨
      ev = Event.rsyncCreateSignature (Reader.file (Args.First args)) ∨
      ev = Event.osOpen (Args.Get args 1) ∨
      (args.length = 2 ∧ ∃ signature : Sig,
        ev = Event.rsyncCreateDelta (Reader.file (Args.Get args 1)) signature Writer.stdout) ∨
      (args.length ≠ 2 ∧ ev = Event.osCreate (Args.Get args 2)) ∨
      (args.length ≠ 2 ∧ ∃ signature : Sig,
        ev = Event.rsyncCreateDelta (Reader.file (Args.Get args 1)) signature
          (Writer.file (Args.Get args 2))) := by
  intro ev hev
  simp only [runCommand, Command.before, Command.action, diff, diffBefore_pass args h] at hev
  rcases hsig : env.rsyncCreateSignature [Event.osOpen (Args.First args)]
    (Reader.file (Args.First args)) with ⟨signature, e⟩
  by_cases h2 : args.length = 2 <;>
    cases ho : env.osOpen [] (Args.First args) <;>
    cases e <;>
    cases ho2 : env.osOpen [Event.osOpen (Args.First args),
      Event.rsyncCreateSignature (Reader.file (Args.First args))] (Args.Get args 1) <;>
    cases hc : env.osCreate [Event.osOpen (Args.First args),
      Event.rsyncCreateSignature (Reader.file (Args.First args)),
      Event.osOpen (Args.Get args 1)] (Args.Get args 2) <;>
    simp [ho, hsig, ho2, hc, h2, diffDelta] at hev <;>
    simp [h2] <;> tauto

/-- C3: in a run of `diff` with at least two arguments in which both files
open, the signature is built and the output is available, the signature is
the one `rsync.CreateSignature` returned for the file opened under the first
argument, `rsync.CreateDelta` is called on the file opened under the second
argument with exactly that signature and a sink returning what the encoder
returns, and the command's result is the result of that call: an error of the
delta computation is the command's error and the process exits with status 1. -/
theorem diff_base_then_target {Sig Op : Type} (env : Env Sig Op) (args : Args)
    (signature : Sig) (output : Writer) (before : Trace Sig)
    (hargs : 2 ≤ args.length)
    (hfirst : env.osOpen [] (Args.First args) = none)
    (hsig : env.rsyncCreateSignature [Event.osOpen (Args.First args)]
      (Reader.file (Args.First args)) = (signature, none))
    (hsecond : env.osOpen [Event.osOpen (Args.First args),
      Event.rsyncCreateSignature (Reader.file (Args.First args))] (Args.Get args 1) = none)
    (hout : (args.length = 2 ∧ output = Writer.stdout ∧
        before = [Event.osOpen (Args.First args),
          Event.rsyncCreateSignature (Reader.file (Args.First args)),
          Event.osOpen (Args.Get args 1)]) ∨
      (args.length ≠ 2 ∧ output = Writer.file (Args.Get args 2) ∧
        before = [Event.osOpen (Args.First args),
          Event.rsyncCreateSignature (Reader.file (Args.First args)),
          Event.osOpen (Args.Get args 1), Event.osCreate (Args.Get args 2)] ∧
        env.osCreate [Event.osOpen (Args.First args),
          Event.rsyncCreateSignature (Reader.file (Args.First args)),
          Event.osOpen (Args.Get args 1)] (Args.Get args 2) = none)) :
    runCommand env Command.diff args [] =
      (before ++ [Event.rsyncCreateDelta (Reader.file (Args.Get args 1)) signature output],
        env.rsyncCreateDelta before (Reader.file (Args.Get args 1)) signature
          (writer env output)) ∧
    (∀ op : Op, writer env output op = env.gobEncode output op) ∧
    (∀ err : GoError,
      env.rsyncCreateDelta before (Reader.file (Args.Get args 1)) signature
          (writer env output) = some err →
        (runCommand env Command.diff args []).2 = some err ∧
        main env Command.diff args =
          (before ++ [Event.rsyncCreateDelta (Reader.file (Args.Get args 1)) signature output,
            Event.print (err ++ "\n"), Event.osExit 1], 1)) ∧
    (env.rsyncCreateDelta before (Reader.file (Args.Get args 1)) signature
        (writer env output) = none →
      (main env Command.diff args).2 = 0) := by
  have hrun : runCommand env Command.diff args [] =
      (before ++ [Event.rsyncCreateDelta (Reader.file (Args.Get args 1)) signature output],
        env.rsyncCreateDelta before (Reader.file (Args.Get args 1)) signature
          (writer env output)) := by
    rcases hout with ⟨h2, rfl, rfl⟩ | ⟨h2, rfl, rfl, hc⟩ <;>
      simp [runCommand, Command.before, Command.action, diff, diffDelta,
        diffBefore_pass args hargs, hfirst, hsig, hsecond, h2, *]
  refine ⟨hrun, ?_, ?_, ?_⟩
  · intro op
    simp only [writer]
    cases env.gobEncode output op <;> rfl
  · intro err herr
    simp [main, hrun, herr]
  · intro hok
    simp [main, hrun, hok]

/-- C4: `diff` with fewer than two arguments is rejected with the usage error
and makes no call at all; with exactly two arguments it creates no file, and
the delta is computed with a sink that encodes onto standard output; with
three or more arguments the only file it creates is the one named by the third
argument, and the delta is computed with a sink that encodes onto that file.
In both cases the command returns what `rsync.CreateDelta` returns for that
sink, and the sink returns what the encoder on its output returns. -/
theorem diff_destination {Sig Op : Type} (env : Env Sig Op) :
    (∀ args : Args, args.length < 2 →
      runCommand env Command.diff args [] =
        ([], some "Usage: regsync filename1 filename2 [diff_filename (default stdout)]")) ∧
    (∀ f1 f2 : String,
      (∀ name : String, Event.osCreate name ∉ (runCommand env Command.diff [f1, f2] []).1) ∧
      (∀ (r : Reader) (s : Sig) (w : Writer),
        Event.rsyncCreateDelta r s w ∈ (runCommand env Command.diff [f1, f2] []).1 →
          w = Writer.stdout) ∧
      (∀ signature : Sig, env.osOpen [] f1 = none →
        env.rsyncCreateSignature [Event.osOpen f1] (Reader.file f1) = (signature, none) →
        env.osOpen [Event.osOpen f1, Event.rsyncCreateSignature (Reader.file f1)] f2 = none →
        runCommand env Command.diff [f1, f2] [] =
          ([Event.osOpen f1, Event.rsyncCreateSignature (Reader.file f1), Event.osOpen f2,
              Event.rsyncCreateDelta (Reader.file f2) signature Writer.stdout],
            env.rsyncCreateDelta
              [Event.osOpen f1, Event.rsyncCreateSignature (Reader.file f1), Event.osOpen f2]
              (Reader.file f2) signature (writer env Writer.stdout)))) ∧
    (∀ (f1 f2 f3 : String) (rest : List String),
      (∀ name : String,
        Event.osCreate name ∈ (runCommand env Command.diff (f1 :: f2 :: f3 :: rest) []).1 →
          name = f3) ∧
      (∀ (r : Reader) (s : Sig) (w : Writer),
        Event.rsyncCreateDelta r s w ∈
            (runCommand env Command.diff (f1 :: f2 :: f3 :: rest) []).1 →
          w = Writer.file f3) ∧
      (∀ signature : Sig, env.osOpen [] f1 = none →
        env.rsyncCreateSignature [Event.osOpen f1] (Reader.file f1) = (signature, none) →
        env.osOpen [Event.osOpen f1, Event.rsyncCreateSignature (Reader.file f1)] f2 = none →
        env.osCreate [Event.osOpen f1, Event.rsyncCreateSignature (Reader.file f1),
          Event.osOpen f2] f3 = none →
        runCommand env Command.diff (f1 :: f2 :: f3 :: rest) [] =
          ([Event.osOpen f1, Event.rsyncCreateSignature (Reader.file f1), Event.osOpen f2,
              Event.osCreate f3,
              Event.rsyncCreateDelta (Reader.file f2) signature (Writer.file f3)],
            env.rsyncCreateDelta
              [Event.osOpen f1, Event.rsyncCreateSignature (Reader.file f1), Event.osOpen f2,
                Event.osCreate f3]
              (Reader.file f2) signature (writer env (Writer.file f3))))) ∧
    (∀ (output : Writer) (op : Op), writer env output op = env.gobEncode output op) := by
  refine ⟨?_, ?_, ?_, ?_⟩
  · intro args h
    simp [runCommand, Command.before, diffBefore, h]
  · intro f1 f2
    refine ⟨?_, ?_, ?_⟩
    · intro name hev
      have := diff_events env [f1, f2] (by simp) _ hev
      simp [Args.First, Args.Get] at this
    · intro r s w hev
      have := diff_events env [f1, f2] (by simp) _ hev
      simp [Args.First, Args.Get] at this
      exact this.2
    · intro signature ho hs ho2
      simp [runCommand, Command.before, Command.action, diff, diffDelta, diffBefore,
        Args.First, Args.Get, ho, hs, ho2]
  · intro f1 f2 f3 rest
    refine ⟨?_, ?_, ?_⟩
    · intro name hev
      have := diff_events env (f1 :: f2 :: f3 :: rest) (by simp) _ hev
      simp [Args.First, Args.Get] at this
      exact this
    · intro r s w hev
      have := diff_events env (f1 :: f2 :: f3 :: rest) (by simp) _ hev
      simp [Args.First, Args.Get] at this
      exact this.2
    · intro signature ho hs ho2 hc
      have hb : diffBefore (f1 :: f2 :: f3 :: rest) = none := diffBefore_pass _ (by simp)
      simp [runCommand, Command.before, Command.action, diff, diffDelta, hb,
        Args.First, Args.Get, ho, hs, ho2, hc]
  · intro output op
    simp only [writer]
    cases env.gobEncode output op <;> rfl

/-! ## Instances -/

/-- C1 at `isgzip a.gz`, where the file opens and the detector answers true:
the process prints the path and exits with status 0. -/
theorem isgzip_succeeds_iff_detector_witness :
    (sampleEnv [] [] true).osOpen [] "a.gz" = none ∧
    (sampleEnv [] [] true).streamsIsGzip [Event.osOpen "a.gz"] (Reader.file "a.gz") =
      (true, none) ∧
    (runCommand (sampleEnv [] [] true) Command.isgzip ["a.gz"] []).2 = none ∧
    main (sampleEnv [] [] true) Command.isgzip ["a.gz"] =
      ([Event.osOpen "a.gz", Event.streamsIsGzip (Reader.file "a.gz"), Event.print "a.gz\n"],
        0) :=
  ⟨by decide, by decide,
    (isgzip_succeeds_iff_detector (sampleEnv [] [] true) ["a.gz"] "a.gz" (Reader.file "a.gz")
      [Event.osOpen "a.gz"] (Or.inr ⟨by decide, by decide, rfl, rfl, by decide⟩)).1.2
      (by decide),
    (isgzip_succeeds_iff_detector (sampleEnv [] [] true) ["a.gz"] "a.gz" (Reader.file "a.gz")
      [Event.osOpen "a.gz"] (Or.inr ⟨by decide, by decide, rfl, rfl, by decide⟩)).2.2.1
      (by decide)⟩

/-- C2 at `recompressible a.gz`, where the file opens and the verifier answers
false: the process prints the error and exits with status 1. -/
theorem recompressible_succeeds_iff_verifier_witness :
    (sampleEnv [] [] false).osOpen [] "a.gz" = none ∧
    (sampleEnv [] [] false).streamsRecompressible [Event.osOpen "a.gz"] (Reader.file "a.gz") =
      (false, none) ∧
    (runCommand (sampleEnv [] [] false) Command.recompressible ["a.gz"] []).2 =
      some "Archive is NOT recompressible!" ∧
    main (sampleEnv [] [] false) Command.recompressible ["a.gz"] =
      ([Event.osOpen "a.gz", Event.streamsRecompressible (Reader.file "a.gz"),
        Event.print "Archive is NOT recompressible!\n", Event.osExit 1], 1) :=
  ⟨by decide, by decide,
    (recompressible_succeeds_iff_verifier (sampleEnv [] [] false) ["a.gz"] (Reader.file "a.gz")
      [Event.osOpen "a.gz"] (Or.inr ⟨by decide, by decide, by decide, by decide⟩)).2.2.2.1
      (by decide)⟩

/-- C3 at `diff a b c`, where the files open, the signature of `a` is built,
`c` is created and the encoder fails: the signature of `a` and the file `b`
reach `rsync.CreateDelta`, the sink's error is the command's error, and the
process exits with status 1. -/
theorem diff_base_then_target_witness :
    (sinkEnv [Writer.file "c"]).osOpen [] "a" = none ∧
    (sinkEnv [Writer.file "c"]).rsyncCreateSignature [Event.osOpen "a"] (Reader.file "a") =
      (Reader.file "a", none) ∧
    (sinkEnv [Writer.file "c"]).osOpen
      [Event.osOpen "a", Event.rsyncCreateSignature (Reader.file "a")] "b" = none ∧
    (sinkEnv [Writer.file "c"]).osCreate
      [Event.osOpen "a", Event.rsyncCreateSignature (Reader.file "a"), Event.osOpen "b"] "c"
        = none ∧
    (runCommand (sinkEnv [Writer.file "c"]) Command.diff ["a", "b", "c"] []).2 = some "disk full" ∧
    main (sinkEnv [Writer.file "c"]) Command.diff ["a", "b", "c"] =
      ([Event.osOpen "a", Event.rsyncCreateSignature (Reader.file "a"), Event.osOpen "b",
          Event.osCreate "c",
          Event.rsyncCreateDelta (Reader.file "b") (Reader.file "a") (Writer.file "c"),
          Event.print "disk full\n", Event.osExit 1], 1) :=
  ⟨by decide, by decide, by decide, by decide,
    (diff_base_then_target (sinkEnv [Writer.file "c"]) ["a", "b", "c"] (Reader.file "a")
      (Writer.file "c")
      [Event.osOpen "a", Event.rsyncCreateSignature (Reader.file "a"), Event.osOpen "b",
        Event.osCreate "c"]
      (by decide) (by decide) (by decide) (by decide)
      (Or.inr ⟨by decide, by decide, by decide, by decide⟩)).2.2.1 "disk full" (by decide)⟩

/-- C4 at `diff a`, `diff a b` and `diff a b c`, where the encoder fails on
the file `c` only: the first is rejected without any call, the second encodes
onto standard output and succeeds, the third encodes onto the file `c` and
returns the encoder's error. -/
theorem diff_destination_witness :
    (["a"].length < 2 ∧
      runCommand (sinkEnv [Writer.file "c"]) Command.diff ["a"] [] =
        ([], some "Usage: regsync filename1 filename2 [diff_filename (default stdout)]")) ∧
    ((sinkEnv [Writer.file "c"]).osOpen [] "a" = none ∧
      (sinkEnv [Writer.file "c"]).rsyncCreateSignature [Event.osOpen "a"] (Reader.file "a") =
        (Reader.file "a", none) ∧
      (sinkEnv [Writer.file "c"]).osOpen
        [Event.osOpen "a", Event.rsyncCreateSignature (Reader.file "a")] "b" = none ∧
      runCommand (sinkEnv [Writer.file "c"]) Command.diff ["a", "b"] [] =
        ([Event.osOpen "a", Event.rsyncCreateSignature (Reader.file "a"), Event.osOpen "b",
          Event.rsyncCreateDelta (Reader.file "b") (Reader.file "a") Writer.stdout],
          none)) ∧
    ((sinkEnv [Writer.file "c"]).osCreate
        [Event.osOpen "a", Event.rsyncCreateSignature (Reader.file "a"), Event.osOpen "b"] "c"
          = none ∧
      runCommand (sinkEnv [Writer.file "c"]) Command.diff ["a", "b", "c"] [] =
        ([Event.osOpen "a", Event.rsyncCreateSignature (Reader.file "a"), Event.osOpen "b",
          Event.osCreate "c",
          Event.rsyncCreateDelta (Reader.file "b") (Reader.file "a") (Writer.file "c")],
          some "disk full")) :=
  ⟨⟨by decide, (diff_destination (sinkEnv [Writer.file "c"])).1 ["a"] (by decide)⟩,
    ⟨by decide, by decide, by decide,
      ((diff_destination (sinkEnv [Writer.file "c"])).2.1 "a" "b").2.2 (Reader.file "a")
        (by decide) (by decide) (by decide)⟩,
    ⟨by decide,
      ((diff_destination (sinkEnv [Writer.file "c"])).2.2.1 "a" "b" "c" []).2.2
        (Reader.file "a") (by decide) (by decide) (by decide) (by decide)⟩⟩

/-- C5 at `compress a`, where the file opens and `a.gz` is created. -/
theorem compress_selects_streams_witness :
    (sampleEnv [] [] true).osOpen [] "a" = none ∧
    (sampleEnv [] [] true).osCreate [Event.osOpen "a"] "a.gz" = none ∧
    runCommand (sampleEnv [] [] true) Command.compress ["a"] [] =
      ([Event.osOpen "a", Event.osCreate "a.gz",
          Event.streamsCompress (Reader.file "a") (Writer.file "a.gz")],
        (sampleEnv [] [] true).streamsCompress [Event.osOpen "a", Event.osCreate "a.gz"]
          (Reader.file "a") (Writer.file "a.gz")) :=
  ⟨by decide, by decide,
    ((compress_selects_streams (sampleEnv [] [] true)).2.1 "a").2 (by decide) (by decide)⟩

/-- C6 at `decompress a.gz.gz`, where the file opens and `a.gz` is created. -/
theorem decompress_selects_streams_witness :
    (sampleEnv [] [] true).osOpen [] "a.gz.gz" = none ∧
    (sampleEnv [] [] true).osCreate [Event.osOpen "a.gz.gz"] "a.gz" = none ∧
    runCommand (sampleEnv [] [] true) Command.decompress ["a.gz.gz"] [] =
      ([Event.osOpen "a.gz.gz", Event.osCreate "a.gz",
          Event.streamsDecompress (Reader.file "a.gz.gz") (Writer.file "a.gz")],
        (sampleEnv [] [] true).streamsDecompress
          [Event.osOpen "a.gz.gz", Event.osCreate "a.gz"]
          (Reader.file "a.gz.gz") (Writer.file "a.gz")) :=
  ⟨by decide, by decide,
    ((decompress_selects_streams (sampleEnv [] [] true)).2.2.1 "a.gz").2
      (by decide) (by decide)⟩

/-- C7 at `compress a` and `decompress a.gz` in an environment where every
call succeeds. -/
theorem usage_standard_output_not_honoured_witness :
    (sampleEnv [] [] true).osOpen [] "a" = none ∧
    (sampleEnv [] [] true).osCreate [Event.osOpen "a"] "a.gz" = none ∧
    (sampleEnv [] [] true).osOpen [] "a.gz" = none ∧
    (sampleEnv [] [] true).osCreate [Event.osOpen "a.gz"] "a" = none ∧
    runCommand (sampleEnv [] [] true) Command.compress ["a"] [] =
      ([Event.osOpen "a", Event.osCreate "a.gz",
          Event.streamsCompress (Reader.file "a") (Writer.file "a.gz")], none) ∧
    runCommand (sampleEnv [] [] true) Command.decompress ["a.gz"] [] =
      ([Event.osOpen "a.gz", Event.osCreate "a",
          Event.streamsDecompress (Reader.file "a.gz") (Writer.file "a")], none) :=
  ⟨by decide, by decide, by decide, by decide,
    (usage_standard_output_not_honoured (sampleEnv [] [] true)
      (by decide) (by decide) (by decide) (by decide)).1,
    (usage_standard_output_not_honoured (sampleEnv [] [] true)
      (by decide) (by decide) (by decide) (by decide)).2.1⟩

/-- C8 at `compress a`, `decompress a` and `diff a b` where `a` does not open,
at `diff a b` where the signature of `a` cannot be built, and at `diff a b`
where `b` does not open. -/
theorem failure_before_output_witness :
    ((sampleEnv ["a"] [] true).osOpen [] "a" = some "open a" ∧
      runCommand (sampleEnv ["a"] [] true) Command.compress ["a"] [] =
        ([Event.osOpen "a"], some "open a") ∧
      runCommand (sampleEnv ["a"] [] true) Command.decompress ["a"] [] =
        ([Event.osOpen "a"], some "open a") ∧
      runCommand (sampleEnv ["a"] [] true) Command.diff ["a", "b"] [] =
        ([Event.osOpen "a"], some "open a")) ∧
    (brokenSignatureEnv.osOpen [] "a" = none ∧
      (brokenSignatureEnv.rsyncCreateSignature [Event.osOpen "a"] (Reader.file "a")).2 =
        some "short read" ∧
      runCommand brokenSignatureEnv Command.diff ["a", "b"] [] =
        ([Event.osOpen "a", Event.rsyncCreateSignature (Reader.file "a")],
          some "short read")) ∧
    ((sampleEnv ["b"] [] true).osOpen [] "a" = none ∧
      ((sampleEnv ["b"] [] true).rsyncCreateSignature [Event.osOpen "a"]
        (Reader.file "a")).2 = none ∧
      (sampleEnv ["b"] [] true).osOpen
        [Event.osOpen "a", Event.rsyncCreateSignature (Reader.file "a")] "b" =
          some "open b" ∧
      runCommand (sampleEnv ["b"] [] true) Command.diff ["a", "b"] [] =
        ([Event.osOpen "a", Event.rsyncCreateSignature (Reader.file "a"), Event.osOpen "b"],
          some "open b")) :=
  ⟨⟨by decide,
      (failure_before_output (sampleEnv ["a"] [] true) ["a"] "open a").1
        (by decide) (by decide),
      (failure_before_output (sampleEnv ["a"] [] true) ["a"] "open a").2.1
        (by decide) (by decide),
      (failure_before_output (sampleEnv ["a"] [] true) ["a", "b"] "open a").2.2.1
        (by decide) (by decide)⟩,
    ⟨by decide, by decide,
      (failure_before_output brokenSignatureEnv ["a", "b"] "short read").2.2.2.1
        (by decide) (by decide) (by decide)⟩,
    ⟨by decide, by decide, by decide,
      (failure_before_output (sampleEnv ["b"] [] true) ["a", "b"] "open b").2.2.2.2
        (by decide) (by decide) (by decide) (by decide)⟩⟩

/-- C9, amended, at the name `a`, which does not end in `.gz`, in a directory
without links: `decompress a` creates `a-decompressed`, `compress a` creates
`a.gz`, and neither creates `a`. -/
theorem default_output_differs_from_input_witness :
    (HasSuffix "a" ".gz" = false ∧ decompressOutputName ["a"] = "a-decompressed") ∧
    ((sampleEnv [] [] true).osOpen [] "a" = none ∧
      (sampleEnv [] [] true).osCreate [Event.osOpen "a"] (compressOutputName ["a"]) = none ∧
      createdFiles (sampleEnv [] [] true) id
        (runCommand (sampleEnv [] [] true) Command.compress ["a"] []).1 = ["a.gz"]) ∧
    (id (compressOutputName ["a"]) ≠ id "a" ∧
      id "a" ∉ createdFiles (sampleEnv [] [] true) id
        (runCommand (sampleEnv [] [] true) Command.compress ["a"] []).1) ∧
    (id (decompressOutputName ["a"]) ≠ id "a" ∧
      id "a" ∉ createdFiles (sampleEnv [] [] true) id
        (runCommand (sampleEnv [] [] true) Command.decompress ["a"] []).1) :=
  ⟨⟨by decide,
      (default_output_differs_from_input (sampleEnv [] [] true) id "a").2.2.1
        (fun h => absurd ((hasSuffix_iff "a" ".gz").2 h) (by decide))⟩,
    ⟨by decide, by decide,
      (default_output_differs_from_input (sampleEnv [] [] true) id "a").2.2.2.2.2.1
        (by decide) (by decide)⟩,
    ⟨by decide,
      (default_output_differs_from_input (sampleEnv [] [] true) id "a").2.2.2.2.2.2.2.1
        (by decide)⟩,
    ⟨by decide,
      (default_output_differs_from_input (sampleEnv [] [] true) id "a").2.2.2.2.2.2.2.2
        (by decide)⟩⟩

end Regsync
